import Mathlib

/-!
Verification of the email classification and todo extraction core of the
email-processor-service repository (src/services/ai-email-processor.ts and
src/services/todo-extraction.ts).

The TypeScript code is shallowly embedded: strings are sequences of Unicode
scalar values (JS string methods such as includes, toLowerCase, trim, split
and the concrete regular expressions of the source are modelled by
executable Lean functions on List Char), JS numbers holding integer scores
are Nat, JS numbers holding confidences are Rat, and JS Date values are
modelled by their epoch day number (Int), which is all the source ever
derives from them (day arithmetic and getDay).  Nullable inputs are
modelled by the JsStr type; a thrown TypeError caught by the surrounding
try/catch is modelled by returning the catch-branch result.  The global
regex objects held in TodoExtractionService.timePatterns carry a mutable
lastIndex per pattern; that state is modelled explicitly as a List Nat
threaded through extractTodos.
-/

/-! ## JS string primitives -/

/-- Whitespace class of JS regex \s (also the character set removed by
String.prototype.trim). -/
def isJsSpace (c : Char) : Bool :=
  let n := c.val
  n == 0x20 || n == 0x09 || n == 0x0a || n == 0x0b || n == 0x0c || n == 0x0d ||
  n == 0xa0 || n == 0x1680 || (decide (0x2000 ≤ n) && decide (n ≤ 0x200a)) ||
  n == 0x2028 || n == 0x2029 || n == 0x202f || n == 0x205f || n == 0x3000 || n == 0xfeff

/-- Characters matched by the explicit class [^\n\r] used in the list-item
regexes of todo-extraction.ts. -/
def notCRLF (c : Char) : Bool :=
  !(c.val == 0x0a || c.val == 0x0d)

/-- Characters matched by an unescaped dot in a JS regex (everything except
the four LineTerminator characters). -/
def dotOk (c : Char) : Bool :=
  !(c.val == 0x0a || c.val == 0x0d || c.val == 0x2028 || c.val == 0x2029)

/-- Word characters of JS regex \w, used for \b word boundaries. -/
def isWordChar (c : Char) : Bool :=
  (decide ('a' ≤ c) && decide (c ≤ 'z')) || (decide ('A' ≤ c) && decide (c ≤ 'Z')) ||
  (decide ('0' ≤ c) && decide (c ≤ '9')) || c == '_'

/-- Digit characters of JS regex \d. -/
def isDigitChar (c : Char) : Bool :=
  decide ('0' ≤ c) && decide (c ≤ '9')

/-- Quote characters matched by the regex class containing a double and a
single quote in extractUnsubscribeLinks. -/
def isQuote (c : Char) : Bool :=
  c.val == 0x22 || c.val == 0x27

/-- Case-insensitive character comparison used for the /i regex flag
(ASCII-faithful simple case folding). -/
def ciEq (a b : Char) : Bool := a.toLower == b.toLower

/-- Generic prefix test with a custom character comparison; first argument
is the pattern, second the text. -/
def hasPrefixBy (eq : Char → Char → Bool) : List Char → List Char → Bool
  | [], _ => true
  | _ :: _, [] => false
  | a :: as, b :: bs => eq a b && hasPrefixBy eq as bs

/-- Substring test with a custom character comparison (pattern occurs at
some position of the text). -/
def existsSubstrBy (eq : Char → Char → Bool) (needle : List Char) : List Char → Bool
  | [] => hasPrefixBy eq needle []
  | c :: t => hasPrefixBy eq needle (c :: t) || existsSubstrBy eq needle t

/-- JS String.prototype.includes on character lists. -/
def jsIncludesL (hay needle : List Char) : Bool :=
  existsSubstrBy (fun a b => a == b) needle hay

/-- JS String.prototype.includes. -/
def jsIncludes (hay needle : String) : Bool := jsIncludesL hay.data needle.data

/-- Case-insensitive substring test (body of the /i-flagged substring
regexes of the source). -/
def ciIncludesL (hay needle : List Char) : Bool := existsSubstrBy ciEq needle hay

/-- JS String.prototype.toLowerCase (simple case mapping). -/
def jsToLowerL (cs : List Char) : List Char := cs.map Char.toLower

/-- JS String.prototype.toLowerCase on strings. -/
def jsToLower (s : String) : String := String.mk (jsToLowerL s.data)

/-- JS String.prototype.trim on character lists. -/
def jsTrimL (cs : List Char) : List Char :=
  ((cs.dropWhile isJsSpace).reverse.dropWhile isJsSpace).reverse

/-- JS Math.min on two numbers (written out so that it evaluates by kernel
reduction). -/
def jsMin (a b : ℚ) : ℚ := if a ≤ b then a else b

/-- Addition of JS numbers holding rationals, written with mkRat so that it
evaluates by kernel reduction (the Batteries Rat.add is irreducible). -/
def ratAdd (a b : ℚ) : ℚ := mkRat (a.num * b.den + b.num * a.den) (a.den * b.den)

/-- Division of a JS number by a natural count, written with mkRat so that
it evaluates by kernel reduction. -/
def ratDivNat (a : ℚ) (n : Nat) : ℚ := mkRat a.num (a.den * n)

/-- JS Array.prototype.join. -/
def jsJoin (sep : String) : List String → String
  | [] => ""
  | x :: xs => xs.foldl (fun acc s => acc ++ sep ++ s) x

/-- Insertion-order deduplication helper modelling the JS idiom
[...new Set(list)] (seen accumulates the strings already emitted). -/
def jsSetDedupGo (seen : List String) : List String → List String
  | [] => []
  | x :: xs => if x ∈ seen then jsSetDedupGo seen xs else x :: jsSetDedupGo (x :: seen) xs

/-- JS [...new Set(list)]: drop later duplicates, keep first occurrences in
order. -/
def jsSetDedup (l : List String) : List String := jsSetDedupGo [] l

/-! ## Data model (src/types/categorization.ts) -/

/-- Closed category enumeration EmailCategory, in the key order of the
pattern catalog object literal. -/
inductive EmailCategory
  | newsletter | social | promotional | work | personal | finance | travel
  | shopping | support | spam | important | todo | other
deriving DecidableEq, Repr

/-- TodoPriority. -/
inductive TodoPriority
  | low | medium | high | urgent
deriving DecidableEq, Repr

/-- TodoStatus. -/
inductive TodoStatus
  | pending | in_progress | completed | cancelled | snoozed
deriving DecidableEq, Repr

/-- CategoryPatterns: the five pattern lists of one catalog entry. -/
structure CategoryPatterns where
  keywords : List String
  senderPatterns : List String
  subjectPatterns : List String
  bodyPatterns : List String
  domainPatterns : List String
deriving DecidableEq, Repr

/-- EmailClassificationResult; confidence is a Rat modelling the JS number. -/
structure EmailClassificationResult where
  category : EmailCategory
  subcategories : List EmailCategory
  confidence : ℚ
  isNewsletter : Bool
  priority : Option TodoPriority
  reasoning : String
deriving DecidableEq, Repr

/-- NewsletterDetectionResult. -/
structure NewsletterDetectionResult where
  isNewsletter : Bool
  confidence : ℚ
  unsubscribeLinks : List String
  senderReputation : String
  frequency : String
deriving DecidableEq, Repr

/-- TodoItem without the storage-side fields (Omit of id, emailId,
extractedAt), as produced by the extraction engine.  A Date is its epoch
day number. -/
structure TodoItem where
  title : String
  description : String
  priority : TodoPriority
  status : TodoStatus
  dueDate : Option Int
  confidence : ℚ
  context : String
  actionKeywords : List String
deriving DecidableEq, Repr

/-- TodoExtractionResult. -/
structure TodoExtractionResult where
  todos : List TodoItem
  hasTodos : Bool
  confidence : ℚ
  reasoning : String
deriving DecidableEq, Repr

/-- AIProcessingConfig. -/
structure AIProcessingConfig where
  enableCategorization : Bool
  enableTodoExtraction : Bool
  enableNewsletterDetection : Bool
  maxTokensPerEmail : Nat
  confidenceThreshold : ℚ
  batchSize : Nat
deriving DecidableEq, Repr

/-- Default configuration of AIEmailProcessorService (ai-email-processor.ts
constructor). -/
def defaultConfig : AIProcessingConfig :=
  { enableCategorization := true
    enableTodoExtraction := true
    enableNewsletterDetection := true
    maxTokensPerEmail := 4000
    confidenceThreshold := mkRat 1 2
    batchSize := 10 }

/-! ## Pattern catalog (EmailCategorizationService, private method building
categoryPatterns) -/

/-- Pattern catalog in the key order of the source object literal. -/
def categoryPatternsList : List (EmailCategory × CategoryPatterns) :=
  [ (.newsletter,
     { keywords := ["newsletter", "unsubscribe", "digest", "weekly", "monthly", "edition"]
       senderPatterns := ["newsletter@", "news@", "updates@", "marketing@"]
       subjectPatterns := ["newsletter", "weekly digest", "monthly update", "edition"]
       bodyPatterns := ["unsubscribe", "manage preferences", "view in browser", "list-unsubscribe"]
       domainPatterns := ["mailchimp.com", "constantcontact.com", "aweber.com"] })
  , (.social,
     { keywords := ["notification", "friend", "like", "comment", "share", "follow"]
       senderPatterns := ["notification@", "noreply@facebook", "noreply@twitter", "noreply@linkedin"]
       subjectPatterns := ["liked your", "commented on", "friend request", "mentioned you"]
       bodyPatterns := ["social network", "your profile", "activity on"]
       domainPatterns := ["facebook.com", "twitter.com", "linkedin.com", "instagram.com"] })
  , (.promotional,
     { keywords := ["sale", "discount", "offer", "deal", "promotion", "coupon", "save"]
       senderPatterns := ["promo@", "deals@", "offers@", "marketing@"]
       subjectPatterns := ["% off", "sale", "discount", "limited time", "expires"]
       bodyPatterns := ["promotional", "limited time", "act now", "shop now"]
       domainPatterns := ["amazon.com", "ebay.com", "groupon.com"] })
  , (.work,
     { keywords := ["meeting", "deadline", "project", "report", "team", "urgent"]
       senderPatterns := ["hr@", "team@", "admin@"]
       subjectPatterns := ["re:", "fwd:", "meeting", "project", "urgent"]
       bodyPatterns := ["deadline", "meeting", "project", "deliverable"]
       domainPatterns := [] })
  , (.personal,
     { keywords := ["family", "friend", "birthday", "invitation", "personal"]
       senderPatterns := []
       subjectPatterns := ["birthday", "invitation", "personal"]
       bodyPatterns := ["family", "friend", "personal"]
       domainPatterns := ["gmail.com", "yahoo.com", "hotmail.com"] })
  , (.finance,
     { keywords := ["bank", "credit", "payment", "invoice", "statement", "transaction"]
       senderPatterns := ["bank@", "billing@", "finance@", "accounting@"]
       subjectPatterns := ["statement", "payment", "invoice", "transaction"]
       bodyPatterns := ["account balance", "payment due", "financial"]
       domainPatterns := ["paypal.com", "stripe.com", "bank."] })
  , (.travel,
     { keywords := ["flight", "hotel", "booking", "reservation", "itinerary", "travel"]
       senderPatterns := ["booking@", "travel@", "reservations@"]
       subjectPatterns := ["booking confirmation", "itinerary", "flight"]
       bodyPatterns := ["reservation", "check-in", "travel"]
       domainPatterns := ["booking.com", "expedia.com", "airlines."] })
  , (.shopping,
     { keywords := ["order", "shipping", "delivery", "package", "tracking"]
       senderPatterns := ["orders@", "shipping@", "delivery@"]
       subjectPatterns := ["order confirmation", "shipped", "delivery"]
       bodyPatterns := ["tracking number", "shipped", "delivery"]
       domainPatterns := ["amazon.com", "ebay.com", "shopify."] })
  , (.support,
     { keywords := ["support", "ticket", "help", "issue", "problem", "assistance"]
       senderPatterns := ["support@", "help@", "noreply@"]
       subjectPatterns := ["ticket", "support", "help"]
       bodyPatterns := ["support ticket", "assistance", "help"]
       domainPatterns := ["zendesk.com", "freshdesk.com"] })
  , (.spam,
     { keywords := ["viagra", "lottery", "winner", "congratulations", "million"]
       senderPatterns := []
       subjectPatterns := ["congratulations", "winner", "lottery"]
       bodyPatterns := ["click here", "limited time", "act now"]
       domainPatterns := [] })
  , (.important,
     { keywords := ["urgent", "important", "asap", "emergency", "critical"]
       senderPatterns := ["urgent@", "emergency@"]
       subjectPatterns := ["urgent", "important", "asap", "emergency"]
       bodyPatterns := ["urgent", "important", "critical"]
       domainPatterns := [] })
  , (.todo,
     { keywords := ["action required", "please", "need", "request", "follow up"]
       senderPatterns := []
       subjectPatterns := ["action required", "please review", "follow up"]
       bodyPatterns := ["action required", "please", "need to", "follow up"]
       domainPatterns := [] })
  , (.other,
     { keywords := []
       senderPatterns := []
       subjectPatterns := []
       bodyPatterns := []
       domainPatterns := [] })
  ]

/-- Object-key lookup this.categoryPatterns[category]; every category is in
the catalog, so the fallback record is never reached. -/
def patternsOf (c : EmailCategory) : CategoryPatterns :=
  ((categoryPatternsList.find? (fun cp => decide (cp.1 = c))).map Prod.snd).getD
    { keywords := [], senderPatterns := [], subjectPatterns := [], bodyPatterns := [],
      domainPatterns := [] }

/-! ## Classification engine (EmailCategorizationService) -/

/-- calculateCategoryScore: the five forEach scoring loops, one running
score. -/
def calculateCategoryScore (patterns : CategoryPatterns)
    (subject body sender : String) : Nat :=
  let score := patterns.keywords.foldl
    (fun score keyword =>
      let s1 := if jsIncludes body keyword then score + 2 else score
      if jsIncludes subject keyword then s1 + 3 else s1) 0
  let score := patterns.senderPatterns.foldl
    (fun score p => if jsIncludes sender p then score + 4 else score) score
  let score := patterns.subjectPatterns.foldl
    (fun score p => if jsIncludes subject p then score + 3 else score) score
  let score := patterns.bodyPatterns.foldl
    (fun score p => if jsIncludes body p then score + 2 else score) score
  let score := patterns.domainPatterns.foldl
    (fun score p => if jsIncludes sender p then score + 3 else score) score
  score

/-- getTopIndicators (receives the original, non-lowercased strings). -/
def getTopIndicators (patterns : CategoryPatterns)
    (subject body sender : String) : List String :=
  let indicators := patterns.keywords.foldl
    (fun acc keyword =>
      if jsIncludes subject keyword || jsIncludes body keyword then
        acc ++ ["keyword: " ++ keyword]
      else acc) []
  let indicators := patterns.senderPatterns.foldl
    (fun acc p =>
      if jsIncludes sender p then acc ++ ["sender pattern: " ++ p] else acc) indicators
  indicators.take 3

/-! ### extractUnsubscribeLinks

The source runs the three global case-insensitive regexes
href=["'](.*?unsubscribe.*?)["'], ...opt-out..., ...remove... over the body
and re-matches each hit with the non-global, case-sensitive
href=["'](.*?)["'] to pull out the captured link.  Lazy quantifiers mean:
at a given start, the first (leftmost) occurrence of the keyword after the
opening quote, then the first quote after it; an unescaped dot never
crosses a LineTerminator. -/

/-- Position of the first case-insensitive occurrence of key reachable over
dot-matchable characters, scanning from the head. -/
def findCiOcc (key : List Char) : List Char → Option Nat
  | [] => if hasPrefixBy ciEq key [] then some 0 else none
  | c :: t =>
    if hasPrefixBy ciEq key (c :: t) then some 0
    else if dotOk c then (findCiOcc key t).map (· + 1) else none

/-- Position of the first quote character reachable over dot-matchable
characters. -/
def findQuoteOcc : List Char → Option Nat
  | [] => none
  | c :: t =>
    if isQuote c then some 0
    else if dotOk c then (findQuoteOcc t).map (· + 1) else none

/-- Length consumed by .*?key.*?["'] starting right after the opening
quote: first keyword occurrence, then first closing quote after it. -/
def findKeyQuote (key : List Char) (cs : List Char) : Option Nat :=
  match findCiOcc key cs with
  | none => none
  | some u =>
    (findQuoteOcc (cs.drop (u + key.length))).map (fun w => u + key.length + w + 1)

/-- Length of a match of href=["'](.*?key.*?)["'] (case-insensitive)
starting at the head of cs, if any. -/
def matchHrefAt (key : List Char) (cs : List Char) : Option Nat :=
  if hasPrefixBy ciEq "href=".data cs then
    match cs.drop 5 with
    | [] => none
    | q :: rest =>
      if isQuote q then (findKeyQuote key rest).map (fun n => 6 + n) else none
  else none

/-- Fueled global scan: leftmost matches, continuing after each match
(String.prototype.match with the g flag). -/
def scanHref (key : List Char) : Nat → List Char → List (List Char)
  | 0, _ => []
  | _ + 1, [] => []
  | fuel + 1, c :: t =>
    match matchHrefAt key (c :: t) with
    | some n => (c :: t).take n :: scanHref key fuel ((c :: t).drop (max n 1))
    | none => scanHref key fuel t

/-- All matches of the global unsubscribe-style regex for one keyword. -/
def hrefMatches (key : List Char) (body : List Char) : List (List Char) :=
  scanHref key body.length body

/-- Group of the inner non-global regex href=["'](.*?)["'] if it matches at
the head (case-sensitive, as in the source). -/
def innerHrefAt (cs : List Char) : Option (List Char) :=
  if hasPrefixBy (fun a b => a == b) "href=".data cs then
    match cs.drop 5 with
    | [] => none
    | q :: rest =>
      if isQuote q then (findQuoteOcc rest).map (fun w => rest.take w) else none
  else none

/-- Leftmost match of the inner href regex anywhere in the text. -/
def innerHrefGroup : List Char → Option (List Char)
  | [] => none
  | c :: t =>
    match innerHrefAt (c :: t) with
    | some g => some g
    | none => innerHrefGroup t

/-- extractUnsubscribeLinks: three keyword passes, re-match, keep truthy
(non-empty) captures, deduplicate via a Set. -/
def extractUnsubscribeLinks (body : String) : List String :=
  let keys := ["unsubscribe", "opt-out", "remove"]
  let links := keys.foldl
    (fun acc key =>
      (hrefMatches key.data body.data).foldl
        (fun acc m =>
          match innerHrefGroup m with
          | some g => if g.isEmpty then acc else acc ++ [String.mk g]
          | none => acc) acc) []
  jsSetDedup links

/-- detectNewsletter. -/
def detectNewsletter (subject body sender : String) : NewsletterDetectionResult :=
  let unsubscribeLinks := extractUnsubscribeLinks body
  let hasUnsubscribe : Bool := decide (0 < unsubscribeLinks.length)
  let newsletterScore :=
    calculateCategoryScore (patternsOf .newsletter)
      (jsToLower subject) (jsToLower body) (jsToLower sender)
  { isNewsletter := decide (5 < newsletterScore) || hasUnsubscribe
    confidence := jsMin (ratDivNat (ratAdd (newsletterScore : ℚ) (if hasUnsubscribe then 5 else 0)) 10) 1
    unsubscribeLinks
    senderReputation := "unknown"
    frequency := "unknown" }

/-- determinePriority: three fixed keyword tiers over the lower-cased
concatenation of subject and body. -/
def determinePriority (subject body : String) : Option TodoPriority :=
  let text := jsToLower (subject ++ " " ++ body)
  if jsIncludes text "urgent" || jsIncludes text "asap" || jsIncludes text "emergency" then
    some .urgent
  else if jsIncludes text "important" || jsIncludes text "deadline" || jsIncludes text "critical" then
    some .high
  else if jsIncludes text "please" || jsIncludes text "request" || jsIncludes text "need" then
    some .medium
  else none

/-- Stable insertion of one scored category into a descending list: a new
element goes after all existing elements with a score at least as large,
exactly the unique stable descending order of the JS sort comparator. -/
def insertScoreDesc (x : EmailCategory × Nat) :
    List (EmailCategory × Nat) → List (EmailCategory × Nat)
  | [] => [x]
  | y :: ys => if x.2 ≤ y.2 then y :: insertScoreDesc x ys else x :: y :: ys

/-- Stable descending sort of the scores (Object.entries(scores).sort with
comparator b - a; JS sort is stable, ties keep catalog insertion order). -/
def sortScoresDesc (l : List (EmailCategory × Nat)) : List (EmailCategory × Nat) :=
  l.foldl (fun acc x => insertScoreDesc x acc) []

/-- Score record built at the start of classifyEmail: each catalog category
with its calculateCategoryScore over the lower-cased inputs. -/
def classifyScores (subject body sender : String) : List (EmailCategory × Nat) :=
  categoryPatternsList.map
    (fun cp =>
      (cp.1, calculateCategoryScore cp.2 (jsToLower subject) (jsToLower body) (jsToLower sender)))

/-- Result returned by the catch branch of classifyEmail. -/
def classificationFailure : EmailClassificationResult :=
  { category := .other
    subcategories := []
    confidence := 0
    isNewsletter := false
    priority := none
    reasoning := "Classification failed due to error" }

/-- classifyEmail on plain (non-nullish) strings: the try-block body.  The
empty-sort case mirrors the destructuring of sortedCategories[0], which
would throw into the catch branch. -/
def classifyEmailStr (subject body sender : String) : EmailClassificationResult :=
  let sorted := sortScoresDesc (classifyScores subject body sender)
  match sorted with
  | [] => classificationFailure
  | (primaryCategory, primaryScore) :: _ =>
    { category := primaryCategory
      subcategories :=
        ((sorted.filter
            (fun cs => decide (cs.1 ≠ primaryCategory) && decide (2 < cs.2))).take 3).map
          Prod.fst
      confidence := jsMin (ratDivNat (primaryScore : ℚ) 10) 1
      isNewsletter :=
        decide (primaryCategory = .newsletter) ||
          (detectNewsletter subject body sender).isNewsletter
      priority := determinePriority subject body
      reasoning :=
        "Primary indicators: " ++
          jsJoin ", " (getTopIndicators (patternsOf primaryCategory) subject body sender) }

/-- Nullable JS string argument: a string, null, or undefined. -/
inductive JsStr
  | jstr : String → JsStr
  | jnull
  | jundef
deriving DecidableEq, Repr

/-- Template-literal coercion used by the JS expression putting a value
into a template string: null and undefined stringify. -/
def jsTemplate : JsStr → String
  | .jstr s => s
  | .jnull => "null"
  | .jundef => "undefined"

/-- Whether calling .toLowerCase() on the value throws a TypeError. -/
def JsStr.isNullish : JsStr → Bool
  | .jstr _ => false
  | _ => true

/-- classifyEmail on possibly nullish arguments: calling toLowerCase on a
nullish subject, body or sender throws inside the try block, and the catch
branch returns the failure result; otherwise the try block completes. -/
def classifyEmailJs (subject body sender : JsStr) : EmailClassificationResult :=
  match subject, body, sender with
  | .jstr s, .jstr b, .jstr snd => classifyEmailStr s b snd
  | _, _, _ => classificationFailure

/-! ## Date model (JS Date, reduced to epoch day numbers)

The source only ever derives two things from a Date: day arithmetic via
setDate/getDate and the weekday via getDay.  A date is therefore its epoch
day number (1970-01-01 is day 0, a Thursday). -/

/-- Date.prototype.getDay on an epoch day number. -/
def jsGetDay (d : Int) : Nat := ((d + 4) % 7).toNat

/-- Gregorian leap year. -/
def isLeapYear (y : Int) : Bool := (y % 4 == 0 && y % 100 != 0) || y % 400 == 0

/-- Days in a month. -/
def daysInMonth (m : Nat) (y : Int) : Nat :=
  match m with
  | 1 => 31 | 2 => if isLeapYear y then 29 else 28 | 3 => 31 | 4 => 30 | 5 => 31
  | 6 => 30 | 7 => 31 | 8 => 31 | 9 => 30 | 10 => 31 | 11 => 30 | 12 => 31
  | _ => 0

/-- Epoch day number of a civil date (standard days-from-civil algorithm,
truncating Int division on the shifted year as usual). -/
def civilToEpochDay (y : Int) (m d : Nat) : Int :=
  let y2 : Int := y - (if m ≤ 2 then 1 else 0)
  let era : Int := (if 0 ≤ y2 then y2 else y2 - 399) / 400
  let yoe : Int := y2 - era * 400
  let mp : Int := ((m : Int) + 9) % 12
  let doy : Int := (153 * mp + 2) / 5 + (d : Int) - 1
  let doe : Int := yoe * 365 + yoe / 4 - yoe / 100 + doy
  era * 146097 + doe - 719468

/-- Digits of a numeral to a Nat. -/
def toNatDigits (cs : List Char) : Nat :=
  cs.foldl (fun n c => n * 10 + (c.val.toNat - 48)) 0

/-- Split on a slash separator (no run collapsing). -/
def splitOnSlash (cur : List Char) : List Char → List (List Char)
  | [] => [cur.reverse]
  | c :: t => if c == '/' then cur.reverse :: splitOnSlash [] t else splitOnSlash (c :: cur) t

/-- Model of the fallback new Date(dateString) for the month/day/year slash
shapes that the time-pattern captures can produce (V8 legacy parsing:
two-digit years below 50 are 20xx, below 100 are 19xx; out-of-range
months/days give an Invalid Date, hence none).  Non-slash-date strings give
none. -/
def parseNumericSlash (cs : List Char) : Option Int :=
  match splitOnSlash [] cs with
  | [p1, p2, p3] =>
    if p1 ≠ [] ∧ p2 ≠ [] ∧ p3 ≠ [] ∧
        p1.all isDigitChar ∧ p2.all isDigitChar ∧ p3.all isDigitChar then
      let m := toNatDigits p1
      let d := toNatDigits p2
      let y0 := toNatDigits p3
      let y : Int := if y0 < 50 then 2000 + y0 else if y0 < 100 then 1900 + y0 else y0
      if 1 ≤ m ∧ m ≤ 12 ∧ 1 ≤ d ∧ d ≤ daysInMonth m y then some (civilToEpochDay y m d)
      else none
    else none
  | _ => none

/-- Day-name array of parseDateString (getDay order, Sunday first). -/
def dayNames : List String :=
  ["sunday", "monday", "tuesday", "wednesday", "thursday", "friday", "saturday"]

/-- parseDateString: relative phrases, then the day-name loop, then the
generic date parse.  today is the epoch day of new Date(). -/
def parseDateString (today : Int) (dateString : List Char) : Option Int :=
  let lowerDateString := jsTrimL (jsToLowerL dateString)
  if jsIncludesL lowerDateString "today".data then some today
  else if jsIncludesL lowerDateString "tomorrow".data then some (today + 1)
  else if jsIncludesL lowerDateString "this week".data then
    some (today + (7 - (jsGetDay today : Int)))
  else if jsIncludesL lowerDateString "next week".data then some (today + 7)
  else
    match dayNames.findIdx? (fun nm => jsIncludesL lowerDateString nm.data) with
    | some i =>
      let daysUntilTarget : Int := (i : Int) - (jsGetDay today : Int)
      let daysUntilTarget := if daysUntilTarget ≤ 0 then daysUntilTarget + 7 else daysUntilTarget
      some (today + daysUntilTarget)
    | none => parseNumericSlash dateString

/-! ## Time patterns (TodoExtractionService.timePatterns)

Six global regexes built once in the constructor; each carries a mutable
lastIndex.  A pattern is modelled by its match-at function returning, for a
match starting at the head, the total match length and the text of capture
group 1. -/

/-- Length of the whitespace run at the head (greedy \s+; the groups that
follow start with a non-space character, so no backtracking can shorten
it). -/
def wsRun (cs : List Char) : Nat := (cs.takeWhile isJsSpace).length

/-- Match of \d{1,2}\/\d{1,2}\/\d{2,4} at the head (greedy one-or-two digit
fields backtracking against the slash; the year field has nothing after
it). -/
def matchSlashDate (cs : List Char) : Option (Nat × List Char) :=
  let r1 := (cs.takeWhile isDigitChar).length
  let d1 : Option Nat :=
    if 2 ≤ r1 ∧ (cs.drop 2).head? = some '/' then some 2
    else if 1 ≤ r1 ∧ (cs.drop 1).head? = some '/' then some 1
    else none
  match d1 with
  | none => none
  | some d1 =>
    let cs2 := cs.drop (d1 + 1)
    let r2 := (cs2.takeWhile isDigitChar).length
    let d2 : Option Nat :=
      if 2 ≤ r2 ∧ (cs2.drop 2).head? = some '/' then some 2
      else if 1 ≤ r2 ∧ (cs2.drop 1).head? = some '/' then some 1
      else none
    match d2 with
    | none => none
    | some d2 =>
      let cs3 := cs2.drop (d2 + 1)
      let r3 := (cs3.takeWhile isDigitChar).length
      if 2 ≤ r3 then
        let ylen := min r3 4
        let total := d1 + 1 + d2 + 1 + ylen
        some (total, cs.take total)
      else none

/-- First alternative of a case-insensitive alternation that matches as a
prefix; the capture is the text as written. -/
def matchAltCI : List (List Char) → List Char → Option (Nat × List Char)
  | [], _ => none
  | a :: as, cs =>
    if hasPrefixBy ciEq a cs then some (a.length, cs.take a.length) else matchAltCI as cs

/-- Weekday alternation of the second time pattern, in regex order. -/
def matchWeekdayGroup (cs : List Char) : Option (Nat × List Char) :=
  matchAltCI
    ["monday".data, "tuesday".data, "wednesday".data, "thursday".data,
     "friday".data, "saturday".data, "sunday".data] cs

/-- Match of this\s+week or next\s+week at the head. -/
def matchThisNext (word : List Char) (cs : List Char) : Option (Nat × List Char) :=
  if hasPrefixBy ciEq word cs then
    let rest := cs.drop 4
    let w := wsRun rest
    if w = 0 then none
    else if hasPrefixBy ciEq "week".data (rest.drop w) then
      some (4 + w + 4, cs.take (4 + w + 4))
    else none
  else none

/-- Relative-date alternation (today|tomorrow|this\s+week|next\s+week). -/
def matchRelGroup (cs : List Char) : Option (Nat × List Char) :=
  if hasPrefixBy ciEq "today".data cs then some (5, cs.take 5)
  else if hasPrefixBy ciEq "tomorrow".data cs then some (8, cs.take 8)
  else
    match matchThisNext "this".data cs with
    | some r => some r
    | none => matchThisNext "next".data cs

/-- Literal (case-insensitive) followed by \s+ followed by a capture
group. -/
def matchLitThenGroup (lit : List Char)
    (group : List Char → Option (Nat × List Char)) (cs : List Char) :
    Option (Nat × List Char) :=
  if hasPrefixBy ciEq lit cs then
    let rest := cs.drop lit.length
    let w := wsRun rest
    if w = 0 then none
    else
      match group (rest.drop w) with
      | some r => some (lit.length + w + r.1, r.2)
      | none => none
  else none

/-- Leftmost match of a pattern at position at least pos in the given
suffix, carrying the absolute position along. -/
def findPatMatch (matchAt : List Char → Option (Nat × List Char)) :
    List Char → Nat → Option (Nat × Nat × List Char)
  | [], _ => none
  | c :: t, pos =>
    match matchAt (c :: t) with
    | some r => some (pos, r.1, r.2)
    | none => findPatMatch matchAt t (pos + 1)

/-- RegExp.prototype.exec on a global regex: search from lastIndex; on
success return the capture and the new lastIndex (end of match); on failure
the caller resets lastIndex to 0. -/
def execPattern (matchAt : List Char → Option (Nat × List Char))
    (text : List Char) (lastIndex : Nat) : Option (List Char × Nat) :=
  if text.length < lastIndex then none
  else
    match findPatMatch matchAt (text.drop lastIndex) lastIndex with
    | some r => some (r.2.2, r.1 + r.2.1)
    | none => none

/-- The six time patterns, in source order. -/
def timePatterns : List (List Char → Option (Nat × List Char)) :=
  [ matchLitThenGroup "by".data matchSlashDate
  , matchLitThenGroup "by".data matchWeekdayGroup
  , matchLitThenGroup "due".data matchSlashDate
  , matchLitThenGroup "deadline".data matchSlashDate
  , matchLitThenGroup "before".data matchSlashDate
  , matchLitThenGroup "by".data matchRelGroup ]

/-- Fresh lastIndex state of a newly constructed TodoExtractionService. -/
def freshTimeState : List Nat := [0, 0, 0, 0, 0, 0]

/-- Loop body of extractDueDate: try each pattern in order; the first match
returns parseDateString of capture 1 (the captures are always non-empty, so
match[1] is truthy) and leaves the remaining patterns untouched; a failed
exec resets that lastIndex to 0. -/
def extractDueDateGo (today : Int) (text : List Char) :
    List (List Char → Option (Nat × List Char)) → List Nat → Option Int × List Nat
  | [], lis => (none, lis)
  | _ :: _, [] => (none, [])
  | p :: ps, li :: lis =>
    match execPattern p text li with
    | some r => (parseDateString today r.1, r.2 :: lis)
    | none =>
      let r := extractDueDateGo today text ps lis
      (r.1, 0 :: r.2)

/-- extractDueDate with the persistent per-pattern lastIndex state. -/
def extractDueDate (today : Int) (text : List Char) (st : List Nat) :
    Option Int × List Nat :=
  extractDueDateGo today text timePatterns st

/-! ## Sentence-level extraction -/

/-- Sentence delimiter class of the split regex. -/
def isSentenceDelim (c : Char) : Bool := c == '.' || c == '!' || c == '?'

/-- Split on maximal runs of sentence delimiters (String.prototype.split
with [.!?]+).  Fueled structural recursion: every step consumes at least
one character and one unit of fuel, so fuel equal to the text length never
runs out before the text does. -/
def splitSentRuns (fuel : Nat) (cur : List Char) (cs : List Char) : List (List Char) :=
  match fuel, cs with
  | _, [] => [cur.reverse]
  | 0, _ => [cur.reverse]
  | fuel + 1, c :: t =>
    if isSentenceDelim c then
      cur.reverse :: splitSentRuns fuel [] (t.dropWhile isSentenceDelim)
    else splitSentRuns fuel (c :: cur) t

/-- splitIntoSentences: split, trim, keep fragments longer than 10. -/
def splitIntoSentences (text : List Char) : List (List Char) :=
  ((splitSentRuns text.length [] text).map jsTrimL).filter (fun s => decide (10 < s.length))

/-- ActionPattern. -/
structure ActionPattern where
  keywords : List String
  priority : TodoPriority
  confidence : ℚ
deriving DecidableEq, Repr

/-- Keyword tiers of TodoExtractionService.actionPatterns. -/
def actionPatterns : List ActionPattern :=
  [ { keywords := ["urgent", "asap", "immediately", "emergency"]
      priority := .urgent, confidence := mkRat 9 10 }
  , { keywords := ["deadline", "due", "expires", "critical", "important"]
      priority := .high, confidence := mkRat 8 10 }
  , { keywords := ["please review", "need to", "action required", "follow up"]
      priority := .medium, confidence := mkRat 7 10 }
  , { keywords := ["when you get a chance", "whenever", "if possible"]
      priority := .low, confidence := mkRat 6 10 } ]

/-- Verb alternation of the first imperative regex. -/
def imperativeVerbs : List String :=
  ["review", "send", "complete", "finish", "update", "check", "verify", "confirm",
   "schedule", "call", "email"]

/-- Test of the anchored imperative regex: an optional please plus
whitespace, then one of the verbs as a prefix (case-insensitive, no word
boundary after the verb). -/
def matchImperativeStart (cs : List Char) : Bool :=
  imperativeVerbs.any (fun v => hasPrefixBy ciEq v.data cs) ||
  (hasPrefixBy ciEq "please".data cs &&
    (let rest := cs.drop 6
     let w := wsRun rest
     decide (0 < w) && imperativeVerbs.any (fun v => hasPrefixBy ciEq v.data (rest.drop w))))

/-- Modal alternation of the second imperative regex (unanchored
substring). -/
def modalSubstrings : List String :=
  ["need to", "have to", "must", "should", "could you", "would you", "can you"]

/-- findActionInSentence: first matching tier, else the imperative
fallback. -/
def findActionInSentence (sentence : List Char) : Option ActionPattern :=
  let lowerSentence := jsToLowerL sentence
  match actionPatterns.find?
      (fun pattern => pattern.keywords.any (fun k => jsIncludesL lowerSentence k.data)) with
  | some pattern => some pattern
  | none =>
    if matchImperativeStart sentence ||
        modalSubstrings.any (fun m => ciIncludesL sentence m.data) then
      some { keywords := ["action_verb"], priority := .medium, confidence := mkRat 6 10 }
    else none

/-! ## looksLikeTodo (word-boundary vocabulary test) -/

/-- Left boundary of \b before a word-character-initial pattern. -/
def boundaryBefore : Option Char → Bool
  | none => true
  | some p => !isWordChar p

/-- Right boundary of \b after a word-character-final pattern. -/
def boundaryAfterAt (needle cs : List Char) : Bool :=
  match (cs.drop needle.length).head? with
  | none => true
  | some c => !isWordChar c

/-- Case-insensitive whole-word occurrence scan, threading the previous
character for the left boundary. -/
def containsWordCIGo (needle : List Char) (prev : Option Char) : List Char → Bool
  | [] => false
  | c :: t =>
    (boundaryBefore prev && hasPrefixBy ciEq needle (c :: t) && boundaryAfterAt needle (c :: t)) ||
    containsWordCIGo needle (some c) t

/-- Case-insensitive \b-delimited occurrence of needle in hay. -/
def containsWordCI (hay needle : List Char) : Bool := containsWordCIGo needle none hay

/-- looksLikeTodo: the three word-boundary indicator regexes. -/
def looksLikeTodo (content : List Char) : Bool :=
  (["need", "must", "should", "review", "complete", "send", "update", "check",
    "verify", "call", "email", "schedule"].any fun w => containsWordCI content w.data) ||
  (["action", "task", "todo", "follow up", "deadline", "due"].any
    fun w => containsWordCI content w.data) ||
  (["please", "kindly", "would you", "can you", "could you"].any
    fun w => containsWordCI content w.data)

/-! ## Titles and todo creation -/

/-- Strip one politeness alternative at the start, if present (the
replace call on the title). -/
def stripPolitenessWord (word : List Char) (cs : List Char) : Option (List Char) :=
  if hasPrefixBy ciEq word cs then
    let rest := cs.drop word.length
    let w := wsRun rest
    if w = 0 then none else some (rest.drop w)
  else none

/-- Replacement of the anchored politeness alternation with the empty
string (first alternative wins; unchanged when none applies). -/
def stripPoliteness (cs : List Char) : List Char :=
  match stripPolitenessWord "please".data cs with
  | some r => r
  | none =>
    match stripPolitenessWord "kindly".data cs with
    | some r => r
    | none =>
      match stripPolitenessWord "could you".data cs with
      | some r => r
      | none =>
        match stripPolitenessWord "can you".data cs with
        | some r => r
        | none =>
          match stripPolitenessWord "would you".data cs with
          | some r => r
          | none => cs

/-- Unconditional multi-character uppercase expansions of the Unicode
default full case conversion used by String.prototype.toUpperCase
(SpecialCasing entries whose uppercase field has more than one character),
as code-point pairs; the three regular Greek ypogegrammeni ranges are
handled separately in upperExpansionN. -/
def upperSpecialTable : List (Nat × List Nat) :=
  [ (0x00DF, [0x0053, 0x0053])
  , (0x0149, [0x02BC, 0x004E])
  , (0x01F0, [0x004A, 0x030C])
  , (0x0390, [0x0399, 0x0308, 0x0301])
  , (0x03B0, [0x03A5, 0x0308, 0x0301])
  , (0x0587, [0x0535, 0x0552])
  , (0x1E96, [0x0048, 0x0331])
  , (0x1E97, [0x0054, 0x0308])
  , (0x1E98, [0x0057, 0x030A])
  , (0x1E99, [0x0059, 0x030A])
  , (0x1E9A, [0x0041, 0x02BE])
  , (0x1F50, [0x03A5, 0x0313])
  , (0x1F52, [0x03A5, 0x0313, 0x0300])
  , (0x1F54, [0x03A5, 0x0313, 0x0301])
  , (0x1F56, [0x03A5, 0x0313, 0x0342])
  , (0x1FB2, [0x1FBA, 0x0399])
  , (0x1FB3, [0x0391, 0x0399])
  , (0x1FB4, [0x0386, 0x0399])
  , (0x1FB6, [0x0391, 0x0342])
  , (0x1FB7, [0x0391, 0x0342, 0x0399])
  , (0x1FBC, [0x0391, 0x0399])
  , (0x1FC2, [0x1FCA, 0x0399])
  , (0x1FC3, [0x0397, 0x0399])
  , (0x1FC4, [0x0389, 0x0399])
  , (0x1FC6, [0x0397, 0x0342])
  , (0x1FC7, [0x0397, 0x0342, 0x0399])
  , (0x1FCC, [0x0397, 0x0399])
  , (0x1FD2, [0x0399, 0x0308, 0x0300])
  , (0x1FD3, [0x0399, 0x0308, 0x0301])
  , (0x1FD6, [0x0399, 0x0342])
  , (0x1FD7, [0x0399, 0x0308, 0x0342])
  , (0x1FE2, [0x03A5, 0x0308, 0x0300])
  , (0x1FE3, [0x03A5, 0x0308, 0x0301])
  , (0x1FE4, [0x03A1, 0x0313])
  , (0x1FE6, [0x03A5, 0x0342])
  , (0x1FE7, [0x03A5, 0x0308, 0x0342])
  , (0x1FF2, [0x1FFA, 0x0399])
  , (0x1FF3, [0x03A9, 0x0399])
  , (0x1FF4, [0x038F, 0x0399])
  , (0x1FF6, [0x03A9, 0x0342])
  , (0x1FF7, [0x03A9, 0x0342, 0x0399])
  , (0x1FFC, [0x03A9, 0x0399])
  , (0xFB00, [0x0046, 0x0046])
  , (0xFB01, [0x0046, 0x0049])
  , (0xFB02, [0x0046, 0x004C])
  , (0xFB03, [0x0046, 0x0046, 0x0049])
  , (0xFB04, [0x0046, 0x0046, 0x004C])
  , (0xFB05, [0x0053, 0x0054])
  , (0xFB06, [0x0053, 0x0054])
  , (0xFB13, [0x0544, 0x0546])
  , (0xFB14, [0x0544, 0x0535])
  , (0xFB15, [0x0544, 0x053B])
  , (0xFB16, [0x054E, 0x0546])
  , (0xFB17, [0x0544, 0x053D]) ]

/-- Expanding uppercase mapping of one code point, if any: the Greek
ypogegrammeni ranges (small and titlecase forms map to the capital plus
capital iota) and the explicit table.  All expansions have two or three
characters; every other code point maps one-to-one. -/
def upperExpansionN (n : Nat) : Option (List Nat) :=
  if 0x1F80 ≤ n ∧ n ≤ 0x1F8F then some [0x1F08 + n % 8, 0x0399]
  else if 0x1F90 ≤ n ∧ n ≤ 0x1F9F then some [0x1F28 + n % 8, 0x0399]
  else if 0x1FA0 ≤ n ∧ n ≤ 0x1FAF then some [0x1F68 + n % 8, 0x0399]
  else (upperSpecialTable.find? (fun e => e.1 == n)).map Prod.snd

/-- Full uppercase of one character as used by toUpperCase: the expanding
special cases, else the one-to-one simple mapping (modelled by Char.toUpper,
which is ASCII-exact; non-ASCII simple mappings are one-to-one in Unicode,
so the length, which is what the title bound depends on, is exact). -/
def jsUpperChar (c : Char) : List Char :=
  match upperExpansionN c.val.toNat with
  | some l => l.map (fun n => Char.ofNat n)
  | none => [c.toUpper]

/-- Capitalization of the first character (charAt(0).toUpperCase() plus
slice(1); empty input stays empty).  The full case mapping can expand the
first character, e.g. a sharp s becomes SS. -/
def capitalizeFirst : List Char → String
  | [] => ""
  | c :: t => String.mk (jsUpperChar c ++ t)

/-- Title text after politeness stripping and truncation, before the
first-character capitalization. -/
def titleBeforeCapitalization (content : List Char) : List Char :=
  if 60 < (stripPoliteness content).length then
    (stripPoliteness content).take 57 ++ "...".data
  else stripPoliteness content

/-- generateTodoTitle: strip politeness, truncate to 57 plus an ellipsis
when longer than 60, capitalize the first character. -/
def generateTodoTitle (content : List Char) : String :=
  capitalizeFirst (titleBeforeCapitalization content)

/-- createTodoFromSentence; the length gate runs before the due-date
extraction, so a rejected sentence leaves the regex state untouched. -/
def createTodoFromSentence (today : Int) (sentence : List Char)
    (actionMatch : ActionPattern) (st : List Nat) : Option TodoItem × List Nat :=
  let cleanSentence := jsTrimL sentence
  if cleanSentence.length < 10 ∨ 200 < cleanSentence.length then (none, st)
  else
    let r := extractDueDate today sentence st
    (some { title := generateTodoTitle cleanSentence
            description := String.mk cleanSentence
            priority := actionMatch.priority
            status := .pending
            dueDate := r.1
            confidence := actionMatch.confidence
            context := String.mk sentence
            actionKeywords := actionMatch.keywords.filter
              (fun k => jsIncludesL (jsToLowerL sentence) k.data) }, r.2)

/-- createTodoFromText. -/
def createTodoFromText (today : Int) (content : List Char) (priority : TodoPriority)
    (st : List Nat) : TodoItem × List Nat :=
  let r := extractDueDate today content st
  ({ title := generateTodoTitle content
     description := String.mk content
     priority := priority
     status := .pending
     dueDate := r.1
     confidence := mkRat 7 10
     context := String.mk content
     actionKeywords := [] }, r.2)

/-- Loop body of findActionItems over one sentence. -/
def sentenceStep (today : Int) (acc : List TodoItem × List Nat) (sentence : List Char) :
    List TodoItem × List Nat :=
  match findActionInSentence sentence with
  | some actionMatch =>
    let r := createTodoFromSentence today sentence actionMatch acc.2
    match r.1 with
    | some todo => (acc.1 ++ [todo], r.2)
    | none => (acc.1, r.2)
  | none => acc

/-- findActionItems: forEach over sentences, collecting created todos and
threading the regex state. -/
def findActionItems (today : Int) (text : List Char) (st : List Nat) :
    List TodoItem × List Nat :=
  (splitIntoSentences text).foldl (sentenceStep today) ([], st)

/-! ## Explicit-list extraction -/

/-- Split point of \s+ followed by [^\n\r]+ after a list-marker prefix:
greedy whitespace, backtracking down until a non-CRLF character starts the
content run.  Returns the whitespace length consumed and the content
length. -/
def findSplitDown (rest : List Char) : Nat → Option (Nat × Nat)
  | 0 => none
  | k + 1 =>
    match (rest.drop (k + 1)).head? with
    | some c =>
      if notCRLF c then some (k + 1, ((rest.drop (k + 1)).takeWhile notCRLF).length)
      else findSplitDown rest k
    | none => findSplitDown rest k

/-- Whitespace-then-content match after a list marker; none when no
whitespace follows or no content character is reachable. -/
def spaceContentSplit (rest : List Char) : Option (Nat × Nat) :=
  let n := wsRun rest
  if n = 0 then none else findSplitDown rest n

/-- Match length of the numbered-item regex at the head
(one-or-more digits, a dot, whitespace, a line of content). -/
def matchNumberedAt (cs : List Char) : Option Nat :=
  let d := (cs.takeWhile isDigitChar).length
  if d = 0 then none
  else
    match cs.drop d with
    | c :: rest =>
      if c == '.' then (spaceContentSplit rest).map (fun kc => d + 1 + kc.1 + kc.2)
      else none
    | [] => none

/-- Bullet marker class of the bullet-item regex. -/
def isBulletChar (c : Char) : Bool := c == '-' || c == '*' || c.val == 0x2022

/-- Match length of the bullet-item regex at the head. -/
def matchBulletAt (cs : List Char) : Option Nat :=
  match cs with
  | c :: rest =>
    if isBulletChar c then (spaceContentSplit rest).map (fun kc => 1 + kc.1 + kc.2)
    else none
  | [] => none

/-- Match length of the checkbox-item regex at the head (bracket, a
whitespace or x (case-insensitive), bracket, whitespace, content). -/
def matchCheckboxAt (cs : List Char) : Option Nat :=
  match cs with
  | a :: b :: c :: rest =>
    if a == '[' && (isJsSpace b || b.toLower == 'x') && c == ']' then
      (spaceContentSplit rest).map (fun kc => 3 + kc.1 + kc.2)
    else none
  | _ => none

/-- Fueled global scan shared by the list-item regexes: leftmost matches,
non-overlapping, resuming after each match. -/
def scanAllMatches (matchAt : List Char → Option Nat) : Nat → List Char → List (List Char)
  | 0, _ => []
  | _ + 1, [] => []
  | fuel + 1, c :: t =>
    match matchAt (c :: t) with
    | some n => (c :: t).take n :: scanAllMatches matchAt fuel ((c :: t).drop (max n 1))
    | none => scanAllMatches matchAt fuel t

/-- Global matches of the numbered-item regex over the whole text. -/
def numberedItems (text : List Char) : List (List Char) :=
  scanAllMatches matchNumberedAt text.length text

/-- Global matches of the bullet-item regex. -/
def bulletItems (text : List Char) : List (List Char) :=
  scanAllMatches matchBulletAt text.length text

/-- Global matches of the checkbox-item regex. -/
def checkboxItems (text : List Char) : List (List Char) :=
  scanAllMatches matchCheckboxAt text.length text

/-- Content of a numbered item: the replace call stripping the anchored
digits-dot-whitespace prefix (each item starts with that prefix by
construction). -/
def stripNumberedContent (item : List Char) : List Char :=
  let d := (item.takeWhile isDigitChar).length
  let rest := item.drop (d + 1)
  rest.drop (wsRun rest)

/-- Content of a bullet item. -/
def stripBulletContent (item : List Char) : List Char :=
  let rest := item.drop 1
  rest.drop (wsRun rest)

/-- Content of a checkbox item: the replace call is unanchored but the item
starts with the marker, so the leftmost occurrence is at position 0. -/
def stripCheckboxContent (item : List Char) : List Char :=
  let rest := item.drop 3
  rest.drop (wsRun rest)

/-- Completion test of a checkbox item: the unanchored case-insensitive
search for a checked box anywhere in the item text. -/
def hasCheckedBox (item : List Char) : Bool := ciIncludesL item "[x]".data

/-- Loop body for one accepted numbered or bullet item content. -/
def contentStep (today : Int) (acc : List TodoItem × List Nat) (content : List Char) :
    List TodoItem × List Nat :=
  let r := createTodoFromText today content .medium acc.2
  (acc.1 ++ [r.1], r.2)

/-- Medium-priority todos from a list of already-filtered item contents,
threading the regex state. -/
def todosFromContents (today : Int) (contents : List (List Char)) (st : List Nat) :
    List TodoItem × List Nat :=
  contents.foldl (contentStep today) ([], st)

/-- Loop body for one checkbox item: the created todo gets its status
overwritten from the checked-box test. -/
def checkboxStep (today : Int) (acc : List TodoItem × List Nat) (item : List Char) :
    List TodoItem × List Nat :=
  let r := createTodoFromText today (stripCheckboxContent item) .medium acc.2
  (acc.1 ++ [{ r.1 with status := if hasCheckedBox item then .completed else .pending }], r.2)

/-- Todos from checkbox items: every item is kept (no looksLikeTodo gate in
the source). -/
def todosFromCheckboxItems (today : Int) (items : List (List Char)) (st : List Nat) :
    List TodoItem × List Nat :=
  items.foldl (checkboxStep today) ([], st)

/-- extractExplicitTodos: numbered items and bullet items pass through
looksLikeTodo; checkbox items are all kept. -/
def extractExplicitTodos (today : Int) (text : List Char) (st : List Nat) :
    List TodoItem × List Nat :=
  let r1 := todosFromContents today
    (((numberedItems text).map stripNumberedContent).filter looksLikeTodo) st
  let r2 := todosFromContents today
    (((bulletItems text).map stripBulletContent).filter looksLikeTodo) r1.2
  let r3 := todosFromCheckboxItems today (checkboxItems text) r2.2
  (r1.1 ++ r2.1 ++ r3.1, r3.2)

/-! ## Deduplication, reasoning and the extractTodos entry point -/

/-- Normalized duplicate signature: lower-cased title, underscore,
lower-cased description, all whitespace removed, first 50 characters. -/
def normalizedSignature (todo : TodoItem) : List Char :=
  ((jsToLowerL todo.title.data ++ "_".data ++ jsToLowerL todo.description.data).filter
    (fun c => !isJsSpace c)).take 50

/-- Seen-set loop of deduplicateTodos (keep the first todo of each
signature). -/
def deduplicateTodosGo (seen : List (List Char)) : List TodoItem → List TodoItem
  | [] => []
  | t :: ts =>
    let sig := normalizedSignature t
    if sig ∈ seen then deduplicateTodosGo seen ts
    else t :: deduplicateTodosGo (sig :: seen) ts

/-- deduplicateTodos. -/
def deduplicateTodos (todos : List TodoItem) : List TodoItem :=
  deduplicateTodosGo [] todos

/-- Rendering of a TodoPriority into the reasoning string. -/
def priorityToString : TodoPriority → String
  | .low => "low" | .medium => "medium" | .high => "high" | .urgent => "urgent"

/-- One clause of generateReasoning. -/
def todoClause (i : Nat) (todo : TodoItem) : String :=
  let keywords :=
    if 0 < todo.actionKeywords.length then jsJoin ", " todo.actionKeywords
    else "action verbs"
  "Todo " ++ toString (i + 1) ++ ": Detected \"" ++ keywords ++ "\" indicating " ++
    priorityToString todo.priority ++ " priority action"

/-- generateReasoning. -/
def generateReasoning (todos : List TodoItem) : String :=
  if todos.length = 0 then "No actionable items detected in email content"
  else jsJoin "; " (todos.mapIdx todoClause)

/-- Result returned by the catch branch of extractTodos (never reached: the
try block performs no throwing operation, template-literal coercion
included). -/
def extractionFailure : TodoExtractionResult :=
  { todos := [], hasTodos := false, confidence := 0
    reasoning := "Extraction failed due to error" }

/-- extractTodos on the concatenated working text, threading the
time-pattern regex state. -/
def extractTodosText (cfg : AIProcessingConfig) (today : Int) (text : List Char)
    (st : List Nat) : TodoExtractionResult × List Nat :=
  let r1 := findActionItems today text st
  let r2 := extractExplicitTodos today text r1.2
  let uniqueTodos := deduplicateTodos (r1.1 ++ r2.1)
  let filteredTodos := uniqueTodos.filter
    (fun todo => decide (cfg.confidenceThreshold ≤ todo.confidence))
  let hasTodos : Bool := decide (0 < filteredTodos.length)
  ({ todos := filteredTodos
     hasTodos := hasTodos
     confidence :=
       if hasTodos then
         ratDivNat (filteredTodos.foldl (fun sum todo => ratAdd sum todo.confidence) 0)
           filteredTodos.length
       else 0
     reasoning := generateReasoning filteredTodos }, r2.2)

/-- extractTodos: the working text is the template literal putting subject
and body into one string (nullish values stringify, they do not throw);
the sender argument is unused in the source. -/
def extractTodosJs (cfg : AIProcessingConfig) (today : Int)
    (subject body _sender : JsStr) (st : List Nat) : TodoExtractionResult × List Nat :=
  extractTodosText cfg today (jsTemplate subject ++ " " ++ jsTemplate body).data st

/-- Score of one category written exactly as the claim describes it: a
weighted sum of pattern-occurrence counts over the lower-cased inputs. -/
def claimCategoryScore (p : CategoryPatterns) (subject body sender : String) : Nat :=
  let sL := jsToLower subject
  let bL := jsToLower body
  let sndL := jsToLower sender
  2 * p.keywords.countP (fun k => jsIncludes bL k) +
  3 * p.keywords.countP (fun k => jsIncludes sL k) +
  4 * p.senderPatterns.countP (fun k => jsIncludes sndL k) +
  3 * p.subjectPatterns.countP (fun k => jsIncludes sL k) +
  2 * p.bodyPatterns.countP (fun k => jsIncludes bL k) +
  3 * p.domainPatterns.countP (fun k => jsIncludes sndL k)

/-- Names of the weekdays indexed by their getDay number. -/
def jsDayName : Fin 7 → String
  | ⟨0, _⟩ => "sunday"
  | ⟨1, _⟩ => "monday"
  | ⟨2, _⟩ => "tuesday"
  | ⟨3, _⟩ => "wednesday"
  | ⟨4, _⟩ => "thursday"
  | ⟨5, _⟩ => "friday"
  | ⟨6, _⟩ => "saturday"
  | ⟨n + 7, h⟩ => absurd h (by omega)

/-! ## Shared lemmas -/

/-- Fold of a single guarded increment counts the passing elements. -/
theorem foldl_guard_add {α : Type} (c : Nat) (q : α → Bool) :
    ∀ (l : List α) (n : Nat),
      l.foldl (fun score p => if q p then score + c else score) n = n + c * l.countP q := by
  intro l
  induction l with
  | nil => intro n; simp
  | cons a t ih =>
    intro n
    simp only [List.foldl_cons, List.countP_cons]
    rw [ih]
    by_cases hq : q a
    · simp only [hq, if_true]
      ring
    · simp [hq]

/-- Fold of two guarded increments counts both passing sets. -/
theorem foldl_guard2_add {α : Type} (c d : Nat) (q r : α → Bool) :
    ∀ (l : List α) (n : Nat),
      l.foldl (fun score p =>
        let s1 := if q p then score + c else score
        if r p then s1 + d else s1) n = n + c * l.countP q + d * l.countP r := by
  intro l
  induction l with
  | nil => intro n; simp
  | cons a t ih =>
    intro n
    simp only [List.foldl_cons, List.countP_cons]
    rw [ih]
    by_cases hq : q a <;> by_cases hr : r a <;> simp [hq, hr] <;> ring

/-! ## C1: additive category scoring -/

/-- Helper equality for a single category score. -/
theorem calcScore_eq_claim (p : CategoryPatterns) (subject body sender : String) :
    calculateCategoryScore p (jsToLower subject) (jsToLower body) (jsToLower sender) =
      claimCategoryScore p subject body sender := by
  unfold calculateCategoryScore claimCategoryScore
  simp only [foldl_guard2_add, foldl_guard_add]
  ring

/-- C1: for every subject, body and sender, the per-category score computed
during classification is the additive sum over the catalog: +2 per keyword
in the lower-cased body, +3 per keyword in the lower-cased subject, +4 per
sender pattern in the lower-cased sender, +3 per subject pattern, +2 per
body pattern, +3 per domain pattern; all matches accumulate and absent
patterns contribute 0 (occurrence counts). -/
theorem C1_category_score_additive :
    ∀ (p : CategoryPatterns) (subject body sender : String),
      calculateCategoryScore p (jsToLower subject) (jsToLower body) (jsToLower sender) =
        claimCategoryScore p subject body sender ∧
      classifyScores subject body sender =
        categoryPatternsList.map (fun cp => (cp.1, claimCategoryScore cp.2 subject body sender)) := by
  intro p subject body sender
  refine ⟨calcScore_eq_claim p subject body sender, ?_⟩
  unfold classifyScores
  exact List.map_congr_left (fun cp _ => by rw [calcScore_eq_claim])

/-! ## C2: both engines terminate without throwing; classify degrades to
the exact default on nullish input -/

/-- Join of a non-empty list starts with its first element. -/
theorem jsJoin_cons_ex (sep x : String) (xs : List String) :
    ∃ r, jsJoin sep (x :: xs) = x ++ r := by
  suffices h : ∀ (l : List String) (acc : String),
      ∃ r, l.foldl (fun a s => a ++ sep ++ s) acc = acc ++ r by
    simpa [jsJoin] using h xs x
  intro l
  induction l with
  | nil => intro acc; exact ⟨"", by simp⟩
  | cons s t ih =>
    intro acc
    obtain ⟨r, hr⟩ := ih (acc ++ sep ++ s)
    refine ⟨sep ++ s ++ r, ?_⟩
    rw [List.foldl_cons, hr, String.append_assoc, String.append_assoc, String.append_assoc]

/-- Clauses of generateReasoning start with the letter T. -/
theorem todoClause_head (i : Nat) (t : TodoItem) (r : String) :
    (todoClause i t ++ r).data.head? = some 'T' := by
  have h5 : "Todo ".data = ['T', 'o', 'd', 'o', ' '] := rfl
  simp [todoClause, String.data_append, h5]

/-- generateReasoning never produces the catch-branch failure note. -/
theorem generateReasoning_ne_failure (todos : List TodoItem) :
    generateReasoning todos ≠ "Extraction failed due to error" := by
  cases todos with
  | nil => simp [generateReasoning]
  | cons t ts =>
    simp only [generateReasoning, List.length_cons]
    rw [if_neg (by omega), List.mapIdx_cons]
    obtain ⟨r, hr⟩ := jsJoin_cons_ex "; " (todoClause 0 t) (ts.mapIdx fun i a => todoClause (i + 1) a)
    rw [hr]
    intro h
    have ht := todoClause_head 0 t r
    rw [h] at ht
    exact absurd ht (by decide)

/-- C2: classifyEmail and extractTodos are total on every input, nullish
subject, body or sender included (in the embedding both are total
functions); when any classify argument is nullish, the thrown TypeError is
caught and exactly the default record with the failure-note reasoning comes
back; the extractTodos catch branch is unreachable, so its result is never
the failure record, whatever the inputs and regex state. -/
theorem C2_never_throws :
    (∀ subject body sender : JsStr,
        subject.isNullish = true ∨ body.isNullish = true ∨ sender.isNullish = true →
        classifyEmailJs subject body sender =
          { category := .other, subcategories := [], confidence := 0, isNewsletter := false,
            priority := none, reasoning := "Classification failed due to error" }) ∧
    (∀ (cfg : AIProcessingConfig) (today : Int) (subject body sender : JsStr) (st : List Nat),
        (extractTodosJs cfg today subject body sender st).1.reasoning ≠
          "Extraction failed due to error") := by
  constructor
  · intro subject body sender h
    cases subject <;> cases body <;> cases sender <;>
      simp_all [JsStr.isNullish, classifyEmailJs, classificationFailure]
  · intro cfg today subject body sender st
    exact generateReasoning_ne_failure _

/-- Witness for C2 at a concrete nullish input. -/
theorem C2_never_throws_witness :
    classifyEmailJs .jnull (.jstr "a") (.jstr "b") =
      { category := .other, subcategories := [], confidence := 0, isNewsletter := false,
        priority := none, reasoning := "Classification failed due to error" } :=
  C2_never_throws.1 .jnull (.jstr "a") (.jstr "b") (Or.inl rfl)

/-! ## C3: newsletter detection -/

/-- The Set-based deduplication yields a duplicate-free list whose members
avoid the seen set. -/
theorem jsSetDedupGo_spec (xs : List String) :
    ∀ seen, (jsSetDedupGo seen xs).Nodup ∧ ∀ y ∈ jsSetDedupGo seen xs, y ∉ seen := by
  induction xs with
  | nil => intro seen; simp [jsSetDedupGo]
  | cons x t ih =>
    intro seen
    by_cases hx : x ∈ seen
    · simpa [jsSetDedupGo, hx] using ih seen
    · obtain ⟨hnd, hmem⟩ := ih (x :: seen)
      simp only [jsSetDedupGo]
      rw [if_neg hx]
      refine ⟨List.nodup_cons.mpr
        ⟨fun hxin => hmem x hxin (List.mem_cons_self x seen), hnd⟩, ?_⟩
      intro y hy
      rcases List.mem_cons.mp hy with h | h
      · exact h ▸ hx
      · exact fun hseen => hmem y h (List.mem_cons_of_mem x hseen)

/-- Deduplicated link lists have no duplicates. -/
theorem jsSetDedup_nodup (l : List String) : (jsSetDedup l).Nodup :=
  (jsSetDedupGo_spec l []).1

/-- Extracted unsubscribe links are deduplicated. -/
theorem extractUnsubscribeLinks_nodup (body : String) :
    (extractUnsubscribeLinks body).Nodup := by
  unfold extractUnsubscribeLinks
  exact jsSetDedup_nodup _

/-- The mkRat-based addition agrees with rational addition. -/
theorem ratAdd_eq (a b : ℚ) : ratAdd a b = a + b := by
  have ha : (a.den : ℚ) ≠ 0 := Nat.cast_ne_zero.mpr a.den_nz
  have hb : (b.den : ℚ) ≠ 0 := Nat.cast_ne_zero.mpr b.den_nz
  rw [ratAdd, Rat.mkRat_eq_div]
  conv_rhs => rw [← Rat.num_div_den a, ← Rat.num_div_den b]
  rw [div_add_div _ _ ha hb]
  push_cast
  ring_nf

/-- The mkRat-based division agrees with rational division. -/
theorem ratDivNat_eq (a : ℚ) (n : Nat) : ratDivNat a n = a / n := by
  by_cases hn : n = 0
  · subst hn
    simp [ratDivNat, mkRat]
  · rw [ratDivNat, Rat.mkRat_eq_div]
    conv_rhs => rw [← Rat.num_div_den a]
    rw [div_div]
    push_cast
    ring_nf

/-- jsMin agrees with min. -/
theorem jsMin_eq_min (a b : ℚ) : jsMin a b = min a b := by
  rw [jsMin, min_def]

/-- C3: isNewsletter holds exactly when the newsletter score exceeds 5 or
at least one unsubscribe link was extracted; the confidence is
min((score + (5 if a link was found else 0))/10, 1); the link list is
deduplicated; and the single-link example body yields isNewsletter with
that URL among the links. -/
theorem C3_newsletter_detection :
    (∀ subject body sender : String,
        ((detectNewsletter subject body sender).isNewsletter = true ↔
          (5 < calculateCategoryScore (patternsOf .newsletter)
                (jsToLower subject) (jsToLower body) (jsToLower sender) ∨
            (detectNewsletter subject body sender).unsubscribeLinks ≠ [])) ∧
        (detectNewsletter subject body sender).confidence =
          min (((calculateCategoryScore (patternsOf .newsletter)
                  (jsToLower subject) (jsToLower body) (jsToLower sender) : ℚ) +
                (if (detectNewsletter subject body sender).unsubscribeLinks ≠ [] then 5 else 0)) /
              10) 1 ∧
        (detectNewsletter subject body sender).unsubscribeLinks.Nodup) ∧
    (detectNewsletter "" "href=\"https://x.com/unsubscribe?x=1\"" "").isNewsletter = true ∧
    "https://x.com/unsubscribe?x=1" ∈
      (detectNewsletter "" "href=\"https://x.com/unsubscribe?x=1\"" "").unsubscribeLinks := by
  refine ⟨?_, by decide, by decide⟩
  intro subject body sender
  refine ⟨?_, ?_, extractUnsubscribeLinks_nodup body⟩
  · simp only [detectNewsletter, Bool.or_eq_true, decide_eq_true_eq]
    rw [← List.length_pos_iff_ne_nil]
  · simp only [detectNewsletter]
    rw [jsMin_eq_min, ratDivNat_eq, ratAdd_eq]
    by_cases hL : extractUnsubscribeLinks body = [] <;>
      simp [hL, List.length_pos_iff_ne_nil]

/-! ## C4: all-zero-score classification (empty subject and body) -/

/-- C4 (code behavior at the claimed input): with empty subject and body
and sender test@example.com every category scores 0, the stable sort keeps
catalog order, and the first catalog entry newsletter wins: the result is
category newsletter (not other), confidence 0 and no exception. -/
theorem C4_empty_email_classifies_newsletter :
    classifyEmailStr "" "" "test@example.com" =
      { category := .newsletter, subcategories := [], confidence := 0, isNewsletter := true,
        priority := none, reasoning := "Primary indicators: " } ∧
    (0 : ℚ) ≤ (classifyEmailStr "" "" "test@example.com").confidence ∧
    (classifyEmailStr "" "" "test@example.com").category ≠ .other := by
  refine ⟨by decide, by decide, by decide⟩

/-! ## C5: idempotence of the two engines -/

/-- C5 (code behavior): on one service instance the time-pattern regexes
keep their lastIndex between calls, so calling extractTodos twice on the
identical input gives different results: the first call resolves the due
date of the by-Monday sentence, the second call starts the weekday regex
past the match and loses the due date. -/
theorem C5_extractTodos_not_idempotent :
    (extractTodosJs defaultConfig 0 (.jstr "") (.jstr "Please review the timesheet by Monday")
        (.jstr "x") freshTimeState).1 ≠
      (extractTodosJs defaultConfig 0 (.jstr "") (.jstr "Please review the timesheet by Monday")
        (.jstr "x")
        (extractTodosJs defaultConfig 0 (.jstr "")
          (.jstr "Please review the timesheet by Monday") (.jstr "x") freshTimeState).2).1 ∧
    ((extractTodosJs defaultConfig 0 (.jstr "") (.jstr "Please review the timesheet by Monday")
        (.jstr "x") freshTimeState).1).todos.map TodoItem.dueDate = [some 4] ∧
    ((extractTodosJs defaultConfig 0 (.jstr "") (.jstr "Please review the timesheet by Monday")
        (.jstr "x")
        (extractTodosJs defaultConfig 0 (.jstr "")
          (.jstr "Please review the timesheet by Monday") (.jstr "x") freshTimeState).2).1).todos.map
      TodoItem.dueDate = [none] := by
  refine ⟨by decide, by decide, by decide⟩

/-! ## C6: deduplication of near-duplicate list items -/

/-- C6 (code behavior at the claimed input): the three-numbered-item body
yields five kept candidates, not fewer than three: the sentence splitter
also fires on the same text and its candidates carry the following item
number in title and description, so their normalized signatures differ
from the list-derived ones and only one of the six raw candidates is
dropped. -/
theorem C6_three_items_give_five_todos :
    ((extractTodosJs defaultConfig 0 (.jstr "")
        (.jstr "1. Review the document\n2. Please review the document\n3. Review the attached document")
        (.jstr "manager@company.com") freshTimeState).1).todos.length = 5 ∧
    ¬ ((extractTodosJs defaultConfig 0 (.jstr "")
        (.jstr "1. Review the document\n2. Please review the document\n3. Review the attached document")
        (.jstr "manager@company.com") freshTimeState).1).todos.length < 3 := by
  refine ⟨by decide, by decide⟩

/-! ## C7: extraction on nullish input -/

/-- C7 (code behavior at the claimed input): nullish subject and body do
not reach the catch branch, because the template literal stringifies them;
the result is the empty extraction with the no-actionable-items reasoning,
which does not contain the word failed. -/
theorem C7_nullish_extraction_reasoning :
    (extractTodosJs defaultConfig 0 .jnull .jundef (.jstr "") freshTimeState).1 =
      { todos := [], hasTodos := false, confidence := 0,
        reasoning := "No actionable items detected in email content" } ∧
    jsIncludes "No actionable items detected in email content" "failed" = false := by
  refine ⟨by decide, by decide⟩

/-! ## Stateful fold lemmas shared by C8 and C10 -/

/-- Folds that append to an accumulated list while threading a state
decompose over the accumulator. -/
theorem foldl_accState {τ σ α : Type} (f : List τ × σ → α → List τ × σ)
    (hf : ∀ a s x, f (a, s) x = (a ++ (f ([], s) x).1, (f ([], s) x).2)) :
    ∀ (l : List α) (a : List τ) (s : σ),
      l.foldl f (a, s) = (a ++ (l.foldl f ([], s)).1, (l.foldl f ([], s)).2) := by
  intro l
  induction l with
  | nil => intro a s; simp
  | cons x xs ih =>
    intro a s
    simp only [List.foldl_cons]
    rw [hf a s x, ih (a ++ (f ([], s) x).1) ((f ([], s) x).2),
      show f ([], s) x = ((f ([], s) x).1, (f ([], s) x).2) from rfl,
      ih ((f ([], s) x).1) ((f ([], s) x).2)]
    simp [List.append_assoc]

/-- Every element of such a fold comes from one input element processed at
some intermediate state. -/
theorem mem_foldl_accState {τ σ α : Type} (f : List τ × σ → α → List τ × σ)
    (hf : ∀ a s x, f (a, s) x = (a ++ (f ([], s) x).1, (f ([], s) x).2)) :
    ∀ (l : List α) (s : σ) (t : τ),
      t ∈ (l.foldl f ([], s)).1 → ∃ x s2, x ∈ l ∧ t ∈ (f ([], s2) x).1 := by
  intro l
  induction l with
  | nil => intro s t h; simp at h
  | cons x xs ih =>
    intro s t h
    rw [List.foldl_cons, show f ([], s) x = ((f ([], s) x).1, (f ([], s) x).2) from rfl,
      foldl_accState f hf xs ((f ([], s) x).1) ((f ([], s) x).2)] at h
    rcases List.mem_append.mp h with h1 | h2
    · exact ⟨x, s, List.mem_cons_self x xs, h1⟩
    · obtain ⟨y, s2, hy, ht⟩ := ih ((f ([], s) x).2) t h2
      exact ⟨y, s2, List.mem_cons_of_mem x hy, ht⟩

/-- The sentence step appends its own output to any accumulator. -/
theorem sentenceStep_acc (today : Int) :
    ∀ (a : List TodoItem) (s : List Nat) (x : List Char),
      sentenceStep today (a, s) x =
        (a ++ (sentenceStep today ([], s) x).1, (sentenceStep today ([], s) x).2) := by
  intro a s x
  unfold sentenceStep
  cases hfa : findActionInSentence x with
  | none => simp
  | some pat =>
    simp only []
    cases hc : (createTodoFromSentence today x pat s).1 <;> simp

/-- The content step appends its own output to any accumulator. -/
theorem contentStep_acc (today : Int) :
    ∀ (a : List TodoItem) (s : List Nat) (x : List Char),
      contentStep today (a, s) x =
        (a ++ (contentStep today ([], s) x).1, (contentStep today ([], s) x).2) := by
  intro a s x
  simp [contentStep]

/-- The checkbox step appends its own output to any accumulator. -/
theorem checkboxStep_acc (today : Int) :
    ∀ (a : List TodoItem) (s : List Nat) (x : List Char),
      checkboxStep today (a, s) x =
        (a ++ (checkboxStep today ([], s) x).1, (checkboxStep today ([], s) x).2) := by
  intro a s x
  simp [checkboxStep]

/-- Deduplication only drops elements. -/
theorem mem_deduplicateTodosGo (l : List TodoItem) :
    ∀ (seen : List (List Char)) (t : TodoItem), t ∈ deduplicateTodosGo seen l → t ∈ l := by
  induction l with
  | nil => intro seen t h; simp [deduplicateTodosGo] at h
  | cons x xs ih =>
    intro seen t h
    simp only [deduplicateTodosGo] at h
    split at h
    · exact List.mem_cons_of_mem x (ih _ t h)
    · rcases List.mem_cons.mp h with h1 | h2
      · exact h1 ▸ List.mem_cons_self x xs
      · exact List.mem_cons_of_mem x (ih _ t h2)

/-! ## C8: explicit-list extraction -/

/-- Field view of createTodoFromText. -/
theorem createTodoFromText_fields (today : Int) (content : List Char)
    (priority : TodoPriority) (st : List Nat) :
    ((createTodoFromText today content priority st).1).title = generateTodoTitle content ∧
    ((createTodoFromText today content priority st).1).priority = priority ∧
    ((createTodoFromText today content priority st).1).confidence = mkRat 7 10 ∧
    ((createTodoFromText today content priority st).1).status = .pending :=
  ⟨rfl, rfl, rfl, rfl⟩

/-- Membership in one content step is being the created todo. -/
theorem mem_contentStep (today : Int) (s2 : List Nat) (x : List Char) (t : TodoItem) :
    t ∈ (contentStep today ([], s2) x).1 → t = (createTodoFromText today x .medium s2).1 := by
  intro h
  simpa [contentStep] using h

/-- Membership in one checkbox step is being the created todo with the
overwritten status. -/
theorem mem_checkboxStep (today : Int) (s2 : List Nat) (x : List Char) (t : TodoItem) :
    t ∈ (checkboxStep today ([], s2) x).1 →
      t = { (createTodoFromText today (stripCheckboxContent x) .medium s2).1 with
            status := if hasCheckedBox x then .completed else .pending } := by
  intro h
  simpa [checkboxStep] using h

/-- C8 counterexample: a checkbox item whose content does not look like a
todo still becomes a candidate, so the claim that every checkbox item is
gated by the heuristic fails. -/
theorem C8_checkbox_bypasses_heuristic :
    looksLikeTodo "xyzzy foo".data = false ∧
    ((extractTodosJs defaultConfig 0 (.jstr "") (.jstr "[ ] xyzzy foo") (.jstr "")
        freshTimeState).1).todos.length = 1 := by
  refine ⟨by decide, by decide⟩

/-- C8 as amended: numbered and bullet items pass through looksLikeTodo and
the accepted ones become pending medium-priority candidates with
confidence 0.7; checkbox items all become candidates without any heuristic
test, with the same priority and confidence, and with status completed
exactly when the whole item text contains a checked box marker
(case-insensitively), else pending. -/
theorem C8_explicit_list_extraction :
    (∀ (today : Int) (text : List Char) (st : List Nat) (t : TodoItem),
        t ∈ (extractExplicitTodos today text st).1 →
        t.priority = .medium ∧ t.confidence = mkRat 7 10 ∧
        ((∃ content s2,
            content ∈ ((numberedItems text).map stripNumberedContent) ++
              ((bulletItems text).map stripBulletContent) ∧
            looksLikeTodo content = true ∧
            t = (createTodoFromText today content .medium s2).1 ∧ t.status = .pending) ∨
          (∃ item s2, item ∈ checkboxItems text ∧
            t = { (createTodoFromText today (stripCheckboxContent item) .medium s2).1 with
                  status := if hasCheckedBox item then .completed else .pending }))) ∧
    (∀ (today : Int) (text : List Char) (st : List Nat),
        ((todosFromCheckboxItems today (checkboxItems text) st).1).length =
          (checkboxItems text).length) := by
  constructor
  · intro today text st t ht
    unfold extractExplicitTodos at ht
    simp only [] at ht
    rcases List.mem_append.mp ht with h12 | h3
    · rcases List.mem_append.mp h12 with h1 | h2
      · obtain ⟨x, s2, hx, hmem⟩ :=
          mem_foldl_accState _ (contentStep_acc today) _ _ _ h1
        have hteq := mem_contentStep today s2 x t hmem
        obtain ⟨hxin, hxlook⟩ := List.mem_filter.mp hx
        obtain ⟨ht1, ht2, ht3, ht4⟩ := createTodoFromText_fields today x .medium s2
        refine ⟨hteq ▸ ht2, hteq ▸ ht3, Or.inl ⟨x, s2, List.mem_append_left _ hxin, hxlook, hteq, hteq ▸ ht4⟩⟩
      · obtain ⟨x, s2, hx, hmem⟩ :=
          mem_foldl_accState _ (contentStep_acc today) _ _ _ h2
        have hteq := mem_contentStep today s2 x t hmem
        obtain ⟨hxin, hxlook⟩ := List.mem_filter.mp hx
        obtain ⟨ht1, ht2, ht3, ht4⟩ := createTodoFromText_fields today x .medium s2
        refine ⟨hteq ▸ ht2, hteq ▸ ht3, Or.inl ⟨x, s2, List.mem_append_right _ hxin, hxlook, hteq, hteq ▸ ht4⟩⟩
    · obtain ⟨x, s2, hx, hmem⟩ :=
        mem_foldl_accState _ (checkboxStep_acc today) _ _ _ h3
      have hteq := mem_checkboxStep today s2 x t hmem
      refine ⟨?_, ?_, Or.inr ⟨x, s2, hx, hteq⟩⟩
      · rw [hteq]
        exact (createTodoFromText_fields today (stripCheckboxContent x) .medium s2).2.1
      · rw [hteq]
        exact (createTodoFromText_fields today (stripCheckboxContent x) .medium s2).2.2.1
  · intro today text st
    generalize checkboxItems text = items
    suffices h : ∀ (items : List (List Char)) (a : List TodoItem) (s : List Nat),
        ((items.foldl (checkboxStep today) (a, s)).1).length = a.length + items.length by
      simpa [todosFromCheckboxItems] using h items [] st
    intro items
    induction items with
    | nil => intro a s; simp
    | cons x xs ih =>
      intro a s
      simp only [List.foldl_cons, checkboxStep]
      rw [ih]
      simp
      omega

/-- Witness for C8 at a concrete numbered item. -/
theorem C8_explicit_list_extraction_witness :
    ((createTodoFromText 0 "Review this".data .medium freshTimeState).1).priority = .medium ∧
    ((createTodoFromText 0 "Review this".data .medium freshTimeState).1).confidence = mkRat 7 10 ∧
    ((∃ content s2,
        content ∈ ((numberedItems "1. Review this".data).map stripNumberedContent) ++
          ((bulletItems "1. Review this".data).map stripBulletContent) ∧
        looksLikeTodo content = true ∧
        (createTodoFromText 0 "Review this".data .medium freshTimeState).1 =
          (createTodoFromText 0 content .medium s2).1 ∧
        ((createTodoFromText 0 "Review this".data .medium freshTimeState).1).status = .pending) ∨
      (∃ item s2, item ∈ checkboxItems "1. Review this".data ∧
        (createTodoFromText 0 "Review this".data .medium freshTimeState).1 =
          { (createTodoFromText 0 (stripCheckboxContent item) .medium s2).1 with
            status := if hasCheckedBox item then .completed else .pending })) :=
  C8_explicit_list_extraction.1 0 "1. Review this".data freshTimeState
    ((createTodoFromText 0 "Review this".data .medium freshTimeState).1) (by decide)

/-! ## C9: weekday due dates -/

/-- Helper: when the relative phrases fail and the day-name loop hits index
i, parseDateString lands on the next strictly-future day with getDay i,
within the next seven days. -/
theorem parseDateString_weekday_aux (today : Int) (i : Nat) (ds : List Char)
    (h1 : jsIncludesL (jsTrimL (jsToLowerL ds)) "today".data = false)
    (h2 : jsIncludesL (jsTrimL (jsToLowerL ds)) "tomorrow".data = false)
    (h3 : jsIncludesL (jsTrimL (jsToLowerL ds)) "this week".data = false)
    (h4 : jsIncludesL (jsTrimL (jsToLowerL ds)) "next week".data = false)
    (h5 : dayNames.findIdx? (fun nm => jsIncludesL (jsTrimL (jsToLowerL ds)) nm.data) = some i)
    (hi : i < 7) :
    ∃ d, parseDateString today ds = some d ∧ jsGetDay d = i ∧ today < d ∧ d ≤ today + 7 := by
  simp only [parseDateString, h1, h2, h3, h4, h5, Bool.false_eq_true, if_false]
  refine ⟨_, rfl, ?_, ?_, ?_⟩ <;>
    · simp only [jsGetDay]
      split <;> omega

/-- C9: at the claimed input (the repository test for day-name due dates)
the code extracts no todo at all, because submit is not a recognized verb
and no tier keyword occurs, so no due date exists; and the weekday
resolution of parseDateString itself does advance to the next strictly
future occurrence of the named weekday. -/
theorem C9_due_date_weekday :
    ((extractTodosJs defaultConfig 0 (.jstr "Submit by Monday")
        (.jstr "Please submit your timesheet by Monday.") (.jstr "hr@company.com")
        freshTimeState).1).todos = [] ∧
    (∀ (today : Int) (i : Fin 7),
        ∃ d, parseDateString today (jsDayName i).data = some d ∧
          jsGetDay d = i.val ∧ today < d ∧ d ≤ today + 7) := by
  refine ⟨by decide, ?_⟩
  intro today i
  fin_cases i <;>
    exact parseDateString_weekday_aux today _ _ (by decide) (by decide) (by decide) (by decide)
      (by decide) (by omega)

/-! ## C10: title length invariant -/

/-- Every table expansion has two or three characters. -/
theorem upperSpecialTable_bounds :
    ∀ e ∈ upperSpecialTable, 1 ≤ e.2.length ∧ e.2.length ≤ 3 := by decide

/-- Every uppercase expansion has between one and three characters. -/
theorem upperExpansionN_bounds (n : Nat) (l : List Nat) (h : upperExpansionN n = some l) :
    1 ≤ l.length ∧ l.length ≤ 3 := by
  unfold upperExpansionN at h
  split at h
  · rw [Option.some.injEq] at h
    rw [← h]
    simp
  · split at h
    · rw [Option.some.injEq] at h
      rw [← h]
      simp
    · split at h
      · rw [Option.some.injEq] at h
        rw [← h]
        simp
      · obtain ⟨e, he, hel⟩ := Option.map_eq_some'.mp h
        rw [← hel]
        exact upperSpecialTable_bounds e (List.mem_of_find?_eq_some he)

/-- The full uppercase of one character has between one and three
characters. -/
theorem jsUpperChar_length (c : Char) :
    1 ≤ (jsUpperChar c).length ∧ (jsUpperChar c).length ≤ 3 := by
  unfold jsUpperChar
  cases h : upperExpansionN c.val.toNat with
  | none => simp
  | some l =>
    have hb := upperExpansionN_bounds _ _ h
    simpa using hb

/-- Capitalizing the first character adds at most two characters (the
worst uppercase expansion has three). -/
theorem capitalizeFirst_le (l : List Char) :
    (capitalizeFirst l).length ≤ l.length + 2 := by
  cases l with
  | nil => simp [capitalizeFirst]
  | cons c t =>
    have h := (jsUpperChar_length c).2
    simp only [capitalizeFirst, String.length_mk, List.length_append, List.length_cons]
    omega

/-- Capitalizing keeps the length when the first character's uppercase is
a single character. -/
theorem capitalizeFirst_single (l : List Char) (c : Char) (h : l.head? = some c)
    (h1 : (jsUpperChar c).length = 1) : (capitalizeFirst l).length = l.length := by
  cases l with
  | nil => simp at h
  | cons c2 t =>
    rw [List.head?_cons, Option.some.injEq] at h
    subst h
    simp only [capitalizeFirst, String.length_mk, List.length_append, List.length_cons, h1]
    omega

/-- The pre-capitalization title never exceeds 60 characters. -/
theorem titleBeforeCapitalization_le (content : List Char) :
    (titleBeforeCapitalization content).length ≤ 60 := by
  unfold titleBeforeCapitalization
  by_cases h : 60 < (stripPoliteness content).length
  · rw [if_pos h, List.length_append, List.length_take]
    have h3 : ("...".data).length = 3 := rfl
    omega
  · rw [if_neg h]
    omega

/-- Generated titles never exceed 62 characters. -/
theorem generateTodoTitle_le62 (content : List Char) :
    (generateTodoTitle content).length ≤ 62 := by
  have h1 := capitalizeFirst_le (titleBeforeCapitalization content)
  have h2 := titleBeforeCapitalization_le content
  simp only [generateTodoTitle]
  omega

/-- Generated titles keep the 60-character bound when the first character
of the pre-capitalization title has a single-character uppercase. -/
theorem generateTodoTitle_le60_single (content : List Char) (c : Char)
    (h : (titleBeforeCapitalization content).head? = some c)
    (h1 : (jsUpperChar c).length = 1) :
    (generateTodoTitle content).length ≤ 60 := by
  simp only [generateTodoTitle]
  rw [capitalizeFirst_single _ c h h1]
  exact titleBeforeCapitalization_le content

/-- The title of a sentence-derived todo is the generated title of the
trimmed sentence. -/
theorem createTodoFromSentence_title (today : Int) (sentence : List Char)
    (pat : ActionPattern) (st : List Nat) (t : TodoItem)
    (h : (createTodoFromSentence today sentence pat st).1 = some t) :
    t.title = generateTodoTitle (jsTrimL sentence) := by
  unfold createTodoFromSentence at h
  by_cases hlen : (jsTrimL sentence).length < 10 ∨ 200 < (jsTrimL sentence).length
  · rw [if_pos hlen] at h
    simp at h
  · rw [if_neg hlen] at h
    rw [Option.some.injEq] at h
    rw [← h]

/-- Members of one sentence step carry a generated title. -/
theorem mem_sentenceStep (today : Int) (s2 : List Nat) (x : List Char) (t : TodoItem)
    (h : t ∈ (sentenceStep today ([], s2) x).1) :
    t.title = generateTodoTitle (jsTrimL x) := by
  unfold sentenceStep at h
  cases hfa : findActionInSentence x with
  | none => rw [hfa] at h; simp at h
  | some pat =>
    rw [hfa] at h
    simp only [] at h
    cases hc : (createTodoFromSentence today x pat s2).1 with
    | none => rw [hc] at h; simp at h
    | some todo =>
      rw [hc] at h
      simp only [List.nil_append, List.mem_singleton] at h
      rw [h]
      exact createTodoFromSentence_title today x pat s2 todo hc

/-- Every todo of an extraction result carries a generated title. -/
theorem title_of_mem_extractTodosText (cfg : AIProcessingConfig) (today : Int)
    (text : List Char) (st : List Nat) (t : TodoItem)
    (h : t ∈ ((extractTodosText cfg today text st).1).todos) :
    ∃ c, t.title = generateTodoTitle c := by
  simp only [extractTodosText] at h
  have h1 := (List.mem_filter.mp h).1
  simp only [deduplicateTodos] at h1
  have h2 := mem_deduplicateTodosGo _ _ _ h1
  rcases List.mem_append.mp h2 with hA | hB
  · unfold findActionItems at hA
    obtain ⟨x, s2, _, hmem⟩ := mem_foldl_accState _ (sentenceStep_acc today) _ _ _ hA
    exact ⟨jsTrimL x, mem_sentenceStep today s2 x t hmem⟩
  · unfold extractExplicitTodos at hB
    simp only [] at hB
    rcases List.mem_append.mp hB with h12 | h3
    · rcases List.mem_append.mp h12 with hn | hb
      · unfold todosFromContents at hn
        obtain ⟨x, s2, _, hmem⟩ := mem_foldl_accState _ (contentStep_acc today) _ _ _ hn
        exact ⟨x, by
          rw [mem_contentStep today s2 x t hmem]
          exact (createTodoFromText_fields today x .medium s2).1⟩
      · unfold todosFromContents at hb
        obtain ⟨x, s2, _, hmem⟩ := mem_foldl_accState _ (contentStep_acc today) _ _ _ hb
        exact ⟨x, by
          rw [mem_contentStep today s2 x t hmem]
          exact (createTodoFromText_fields today x .medium s2).1⟩
    · unfold todosFromCheckboxItems at h3
      obtain ⟨x, s2, _, hmem⟩ := mem_foldl_accState _ (checkboxStep_acc today) _ _ _ h3
      exact ⟨stripCheckboxContent x, by
        rw [mem_checkboxStep today s2 x t hmem]
        exact (createTodoFromText_fields today (stripCheckboxContent x) .medium s2).1⟩

/-- C10 counterexample: a body whose one long sentence starts with a sharp
s produces a todo whose title has 61 characters - truncation yields a
60-character pre-capitalization title, and the full uppercase of the first
character expands it to SS - so the claimed universal 60-character bound is
false of the code. -/
theorem C10_sharp_s_title_exceeds_60 :
    (∃ t ∈ ((extractTodosJs defaultConfig 0 (.jstr "")
        (.jstr "ßmustzzzzzzzzzzzzzzzzzzzzzzzzzzzzzzzzzzzzzzzzzzzzzzzzzzzzzzzzzzzz")
        (.jstr "") freshTimeState).1).todos, 60 < t.title.length) ∧
    (((extractTodosJs defaultConfig 0 (.jstr "")
        (.jstr "ßmustzzzzzzzzzzzzzzzzzzzzzzzzzzzzzzzzzzzzzzzzzzzzzzzzzzzzzzzzzzzz")
        (.jstr "") freshTimeState).1).todos.map (fun t => t.title.length)) = [61] := by
  refine ⟨by decide, by decide⟩

/-- C10 as amended: every todo title is at most 62 characters (the
pre-capitalization title is at most 60 and the first character's full
uppercase expands to at most three characters); whenever the first
character of the pre-capitalization title has a single-character uppercase
mapping - in particular for every ASCII first character - the original
60-character bound holds; and a politeness-stripped title longer than 60
characters is exactly the first 57 characters plus an ellipsis with the
first character upper-cased. -/
theorem C10_title_length_amended :
    (∀ (cfg : AIProcessingConfig) (today : Int) (subject body sender : JsStr) (st : List Nat)
        (t : TodoItem),
        t ∈ ((extractTodosJs cfg today subject body sender st).1).todos →
        t.title.length ≤ 62) ∧
    (∀ (content : List Char) (c : Char),
        (titleBeforeCapitalization content).head? = some c →
        (jsUpperChar c).length = 1 →
        (generateTodoTitle content).length ≤ 60) ∧
    (∀ content : List Char,
        60 < (stripPoliteness content).length →
          generateTodoTitle content =
            capitalizeFirst ((stripPoliteness content).take 57 ++ "...".data)) := by
  refine ⟨?_, ?_, ?_⟩
  · intro cfg today subject body sender st t h
    obtain ⟨c, hc⟩ := title_of_mem_extractTodosText cfg today _ st t h
    rw [hc]
    exact generateTodoTitle_le62 c
  · intro content c h h1
    exact generateTodoTitle_le60_single content c h h1
  · intro content h
    simp only [generateTodoTitle, titleBeforeCapitalization, if_pos h]

/-- Witness for the amended C10 at concrete extractions. -/
theorem C10_title_length_amended_witness :
    ({ title := "Review this item", description := "Review this item", priority := .medium,
       status := .pending, dueDate := none, confidence := mkRat 6 10,
       context := "Review this item", actionKeywords := [] } : TodoItem).title.length ≤ 62 ∧
    (generateTodoTitle "review that".data).length ≤ 60 :=
  ⟨C10_title_length_amended.1 defaultConfig 0 (.jstr "") (.jstr "Review this item") (.jstr "")
      freshTimeState _ (by decide),
   C10_title_length_amended.2.1 "review that".data (Char.ofNat 114) (by decide) (by decide)⟩
